import Mathlib

/-!
Shallow embedding of the dapplink-vrf transaction manager (Go package `txmgr`).

The embedding covers:
* the send-state accounting of `send_state.go` (`SendState`, `NewSendState`,
  `ProcessSendError`, `TxMined`, `TxNotMined`, `ShouldAbortImmediately`,
  `IsWaitingForConfirmation`);
* the confirmation waiter `waitMined` of the manager file (one poll iteration,
  with the uint64 confirmation arithmetic modelled exactly, wrap-around
  included);
* the submission driver `Send` (its select loop over ticker / context-done /
  receipt-channel events, and the `sendTxAsync` attempt body);
* the constructors `NewSimpleTxManager` and `NewSendState` (a Go `panic` is
  modelled as `none`);
* the pure helper `CalcGasFeeCap` over arbitrary-precision integers.

Go `map[common.Hash]struct` values are modelled as duplicate-free lists of
hashes; Go `error` values are modelled by their message (a list of
characters), with `nil` as `none`.
-/

namespace Txmgr

/-- Transaction hashes (Go `common.Hash`) are modelled as natural numbers. -/
abbrev Hash := Nat

/-- A Go `error` value is modelled by its message, as a list of characters. -/
abbrev GoError := List Char

/-- Model of Go `strings.Contains hay needle`: `needle` occurs as a
contiguous substring of `hay`. -/
def strContains (hay needle : List Char) : Bool :=
  needle.isPrefixOf hay ||
    match hay with
    | [] => false
    | _ :: t => strContains t needle

/-- The message of go-ethereum's sentinel error `core.ErrNonceTooLow`,
whose message substring `ProcessSendError` tests for. -/
def errNonceTooLowMsg : List Char := "nonce too low".toList

/-- Model of `txmgr.SendState`: `minedTxs` is the Go map used as a set of
hashes (kept duplicate-free), `nonceTooLowCount` and
`safeAbortNonceTooLowCount` are the two `uint64` fields. The mutex is a
concurrency artefact with no sequential content and is not modelled. -/
structure SendState where
  minedTxs : List Hash
  nonceTooLowCount : Nat
  safeAbortNonceTooLowCount : Nat
  deriving DecidableEq

/-- Model of `NewSendState`: the Go constructor panics when
`safeAbortNonceTooLowCount` is zero; the panic is modelled as `none`. -/
def newSendState (safeAbortNonceTooLowCount : Nat) : Option SendState :=
  if safeAbortNonceTooLowCount = 0 then none
  else some ⟨[], 0, safeAbortNonceTooLowCount⟩

/-- Model of `SendState.ProcessSendError`: a `nil` error is a no-op; an
error whose message contains the `core.ErrNonceTooLow` message increments
`nonceTooLowCount`; any other error is ignored. -/
def processSendError (s : SendState) (err : Option GoError) : SendState :=
  match err with
  | none => s
  | some msg =>
      if strContains msg errNonceTooLowMsg then
        { s with nonceTooLowCount := s.nonceTooLowCount + 1 }
      else s

/-- Model of `SendState.TxMined`: insert the hash into the `minedTxs` set
(a Go map assignment, hence a no-op when already present). -/
def txMined (s : SendState) (txHash : Hash) : SendState :=
  if txHash ∈ s.minedTxs then s
  else { s with minedTxs := txHash :: s.minedTxs }

/-- Model of `SendState.TxNotMined`: delete the hash from `minedTxs`; when
the map became empty and the hash had been present, reset
`nonceTooLowCount` to zero. -/
def txNotMined (s : SendState) (txHash : Hash) : SendState :=
  let remaining := s.minedTxs.filter (fun x => x != txHash)
  if remaining = [] ∧ txHash ∈ s.minedTxs then
    { s with minedTxs := remaining, nonceTooLowCount := 0 }
  else
    { s with minedTxs := remaining }

/-- Model of `SendState.ShouldAbortImmediately`: false while any mined
variant is tracked; otherwise compare the counter with the threshold. -/
def shouldAbortImmediately (s : SendState) : Bool :=
  if 0 < s.minedTxs.length then false
  else decide (s.safeAbortNonceTooLowCount ≤ s.nonceTooLowCount)

/-- Model of `SendState.IsWaitingForConfirmation`: true when `minedTxs` is
non-empty. -/
def isWaitingForConfirmation (s : SendState) : Bool :=
  decide (0 < s.minedTxs.length)

/-- One mutating operation on a `SendState`, as invoked by the driver and
the confirmation waiter. -/
inductive SendOp
  | procErr (err : Option GoError)
  | mined (h : Hash)
  | notMined (h : Hash)

/-- Apply one operation to a state. -/
def applyOp (s : SendState) : SendOp → SendState
  | .procErr e => processSendError s e
  | .mined h => txMined s h
  | .notMined h => txNotMined s h

/-- Apply a finite sequence of operations, left to right. -/
def applyOps : SendState → List SendOp → SendState
  | s, [] => s
  | s, op :: rest => applyOps (applyOp s op) rest

theorem applyOp_safeAbort (s : SendState) (op : SendOp) :
    (applyOp s op).safeAbortNonceTooLowCount = s.safeAbortNonceTooLowCount := by
  cases op with
  | procErr e =>
      cases e with
      | none => rfl
      | some msg =>
          simp only [applyOp, processSendError]
          split <;> rfl
  | mined h =>
      simp only [applyOp, txMined]
      split <;> rfl
  | notMined h =>
      simp only [applyOp, txNotMined]
      split <;> rfl

theorem applyOps_safeAbort (s : SendState) (ops : List SendOp) :
    (applyOps s ops).safeAbortNonceTooLowCount = s.safeAbortNonceTooLowCount := by
  induction ops generalizing s with
  | nil => rfl
  | cons op rest ih =>
      rw [applyOps, ih, applyOp_safeAbort]

theorem shouldAbortImmediately_eq (s : SendState) :
    shouldAbortImmediately s = true ↔
      s.minedTxs = [] ∧ s.safeAbortNonceTooLowCount ≤ s.nonceTooLowCount := by
  unfold shouldAbortImmediately
  cases hm : s.minedTxs <;> simp [hm]

/-- C2: for every state reachable by a finite sequence of operations from a
freshly constructed send state with threshold `t`, `ShouldAbortImmediately`
returns true iff `minedTxs` is empty and the nonce-too-low counter has
reached `t`; in particular it returns false whenever `minedTxs` is
non-empty. -/
theorem shouldAbortImmediately_reachable (t : Nat) (s0 : SendState)
    (ops : List SendOp) (hinit : newSendState t = some s0) :
    (shouldAbortImmediately (applyOps s0 ops) = true ↔
      (applyOps s0 ops).minedTxs = [] ∧
        t ≤ (applyOps s0 ops).nonceTooLowCount) ∧
    ((applyOps s0 ops).minedTxs ≠ [] →
      shouldAbortImmediately (applyOps s0 ops) = false) := by
  have hth : s0.safeAbortNonceTooLowCount = t := by
    unfold newSendState at hinit
    split at hinit
    · exact absurd hinit (by simp)
    · cases hinit
      rfl
  constructor
  · rw [shouldAbortImmediately_eq, applyOps_safeAbort, hth]
  · intro hne
    rcases hb : shouldAbortImmediately (applyOps s0 ops) with _ | _
    · rfl
    · exact absurd ((shouldAbortImmediately_eq _).mp hb).1 hne

/-- Witness for C2 at threshold 1 and the empty operation sequence. -/
theorem shouldAbortImmediately_reachable_witness :
    newSendState 1 = some ⟨[], 0, 1⟩ ∧
    ((shouldAbortImmediately (applyOps ⟨[], 0, 1⟩ []) = true ↔
      (applyOps (⟨[], 0, 1⟩ : SendState) []).minedTxs = [] ∧
        1 ≤ (applyOps (⟨[], 0, 1⟩ : SendState) []).nonceTooLowCount) ∧
    ((applyOps (⟨[], 0, 1⟩ : SendState) []).minedTxs ≠ [] →
      shouldAbortImmediately (applyOps ⟨[], 0, 1⟩ []) = false)) :=
  ⟨rfl, shouldAbortImmediately_reachable 1 ⟨[], 0, 1⟩ [] rfl⟩

/-- C3: `TxNotMined h` removes `h` from `minedTxs`, and resets the
nonce-too-low counter exactly when `h` was present before the call and
`minedTxs` is empty after the removal; otherwise the counter is unchanged.
The threshold field is never touched. -/
theorem txNotMined_spec (s : SendState) (h : Hash) :
    (∀ x, x ∈ (txNotMined s h).minedTxs ↔ x ∈ s.minedTxs ∧ x ≠ h) ∧
    ((txNotMined s h).nonceTooLowCount =
      if h ∈ s.minedTxs ∧ (txNotMined s h).minedTxs = [] then 0
      else s.nonceTooLowCount) ∧
    (txNotMined s h).safeAbortNonceTooLowCount
      = s.safeAbortNonceTooLowCount := by
  unfold txNotMined
  simp only []
  split <;> rename_i hcond
  · refine ⟨?_, ?_, rfl⟩
    · intro x
      simp [List.mem_filter]
    · simp only []
      rw [if_pos]
      exact ⟨hcond.2, hcond.1⟩
  · refine ⟨?_, ?_, rfl⟩
    · intro x
      simp [List.mem_filter]
    · simp only []
      rw [if_neg]
      intro hc
      exact hcond ⟨hc.2, hc.1⟩

/-- C5: `ProcessSendError` increments the nonce-too-low counter exactly
when the error is present and its message contains the `NonceTooLow`
sentinel substring; otherwise the whole state is unchanged; `minedTxs` and
the threshold are unchanged in every case. -/
theorem processSendError_spec (s : SendState) (e : Option GoError) :
    (processSendError s e).minedTxs = s.minedTxs ∧
    (processSendError s e).safeAbortNonceTooLowCount
      = s.safeAbortNonceTooLowCount ∧
    ((processSendError s e).nonceTooLowCount = s.nonceTooLowCount + 1 ↔
      ∃ msg, e = some msg ∧ strContains msg errNonceTooLowMsg = true) ∧
    (processSendError s e = s ↔
      ¬ ∃ msg, e = some msg ∧ strContains msg errNonceTooLowMsg = true) := by
  obtain ⟨m, c, t⟩ := s
  cases e with
  | none => simp [processSendError]
  | some msg =>
      cases hc : strContains msg errNonceTooLowMsg <;>
        simp [processSendError, hc, SendState.mk.injEq]

/-- C10: `TxMined` is idempotent, its only effect is inserting the hash
into `minedTxs`, and the nonce-too-low counter and threshold are unchanged
in every state, the abort threshold having been reached included. -/
theorem txMined_spec (s : SendState) (h : Hash) :
    txMined (txMined s h) h = txMined s h ∧
    (∀ x, x ∈ (txMined s h).minedTxs ↔ x = h ∨ x ∈ s.minedTxs) ∧
    (txMined s h).nonceTooLowCount = s.nonceTooLowCount ∧
    (txMined s h).safeAbortNonceTooLowCount
      = s.safeAbortNonceTooLowCount := by
  by_cases hm : h ∈ s.minedTxs <;> simp [txMined, hm]

/-- Model of `txmgr.Config`: the two poll intervals (as abstract durations)
and the two counts, in source order. -/
structure Config where
  resubmissionTimeout : Nat
  receiptQueryInterval : Nat
  numConfirmations : Nat
  safeAbortNonceTooLowCount : Nat
  deriving DecidableEq

/-- Model of `SimpleTxManager`; the backend and logger are external
collaborators and carry no sequential state of their own. -/
structure SimpleTxManager where
  cfg : Config
  deriving DecidableEq

/-- Model of `NewSimpleTxManager`: the Go constructor panics (modelled as
`none`) exactly when `cfg.NumConfirmations` is zero; no other field is
validated there. -/
def newSimpleTxManager (cfg : Config) : Option SimpleTxManager :=
  if cfg.numConfirmations = 0 then none
  else some ⟨cfg⟩

/-- Counterexample for C4: a manager constructed with
`safeAbortNonceTooLowCount = 0` (and `numConfirmations = 1`) is built
without any error; the zero threshold is only rejected later, by
`NewSendState` inside `Send`. -/
theorem newSimpleTxManager_zeroSafeAbort_succeeds :
    newSimpleTxManager ⟨0, 0, 1, 0⟩ = some ⟨⟨0, 0, 1, 0⟩⟩ := rfl

/-- C4 (amended): `NewSimpleTxManager` fails loudly iff
`numConfirmations = 0` (it does not validate the safe-abort count), and
`NewSendState` fails loudly iff `safeAbortNonceTooLowCount = 0`; each
constructor succeeds when its own count is strictly positive. -/
theorem construction_zero_checks (cfg : Config) (t : Nat) :
    (newSimpleTxManager cfg = none ↔ cfg.numConfirmations = 0) ∧
    (newSendState t = none ↔ t = 0) := by
  constructor
  · unfold newSimpleTxManager
    split <;> simp_all
  · unfold newSendState
    split <;> simp_all

/-- The modulus of Go `uint64` arithmetic. -/
def U64 : Nat := 2 ^ 64

/-- The confirmation test of `waitMined`:
`txHeight + numConfirmations <= tipHeight + 1` computed in Go `uint64`
arithmetic, whose additions wrap modulo `2 ^ 64`. -/
def confirmed (txHeight tipHeight numConfirmations : Nat) : Bool :=
  decide ((txHeight + numConfirmations) % U64 ≤ (tipHeight + 1) % U64)

/-- The `confsRemaining` value `waitMined` computes on the
not-yet-confirmed path, with Go `uint64` (wrapping) subtraction. -/
def confsRemaining (txHeight tipHeight numConfirmations : Nat) : Nat :=
  ((txHeight + numConfirmations) % U64 + U64 - (tipHeight + 1) % U64) % U64

/-- A transaction receipt; only the inclusion height matters here
(the Go code reads `receipt.BlockNumber.Uint64()`). -/
structure Receipt where
  blockNumber : Nat
  deriving DecidableEq

/-- Outcome of one iteration of the `waitMined` polling loop. -/
inductive PollResult
  | accepted (r : Receipt)
  | keepPolling
  deriving DecidableEq

/-- One iteration of the `waitMined` polling loop. `receipt` and
`receiptErr` are the two results of `backend.TransactionReceipt` (Go allows
`nil, nil`); `tipResult` is the result of `backend.BlockNumber`, `none` on
error. The `switch` tests the receipt first, reports `TxMined` before the
tip fetch, treats a tip-fetch failure as keep-polling, leaves the state
alone on a lookup error, and reports `TxNotMined` when there is neither a
receipt nor an error. -/
def waitPoll (sendState : Option SendState) (txHash : Hash)
    (receipt : Option Receipt) (receiptErr : Option GoError)
    (tipResult : Option Nat) (numConfirmations : Nat) :
    Option SendState × PollResult :=
  match receipt with
  | some r =>
      let st := sendState.map (fun s => txMined s txHash)
      match tipResult with
      | none => (st, .keepPolling)
      | some tipHeight =>
          if confirmed r.blockNumber tipHeight numConfirmations then
            (st, .accepted r)
          else (st, .keepPolling)
  | none =>
      match receiptErr with
      | some _ => (sendState, .keepPolling)
      | none => (sendState.map (fun s => txNotMined s txHash), .keepPolling)

/-- Counterexample for C1: at `txHeight = 2 ^ 64 - 1`,
`numConfirmations = 2`, `tipHeight = 5`, the `uint64` sum wraps to `1`, so
the waiter accepts the receipt although
`txHeight + numConfirmations ≤ tipHeight + 1` fails over the integers. -/
theorem waitMined_wraparound_accepts :
    (waitPoll none 0 (some ⟨U64 - 1⟩) none (some 5) 2).2
      = PollResult.accepted ⟨U64 - 1⟩ ∧
    ¬ ((U64 - 1) + 2 ≤ 5 + 1) := by
  constructor
  · rfl
  · decide

/-- C1 (amended): when neither `txHeight + numConfirmations` nor
`tipHeight + 1` overflows `uint64` and `numConfirmations ≥ 1`, the waiter
accepts exactly when `txHeight + numConfirmations ≤ tipHeight + 1`; when it
does not accept it computes
`confsRemaining = (txHeight + numConfirmations) - (tipHeight + 1)` and the
poll keeps polling rather than returning. -/
theorem waitMined_confirmation_rule (txHeight tipHeight numConfirmations : Nat)
    (hconf : 1 ≤ numConfirmations)
    (hx : txHeight + numConfirmations < U64)
    (hy : tipHeight + 1 < U64) :
    (confirmed txHeight tipHeight numConfirmations = true ↔
      txHeight + numConfirmations ≤ tipHeight + 1) ∧
    (confirmed txHeight tipHeight numConfirmations = false →
      confsRemaining txHeight tipHeight numConfirmations
        = (txHeight + numConfirmations) - (tipHeight + 1)) ∧
    (∀ st h, (waitPoll st h (some ⟨txHeight⟩) none (some tipHeight)
        numConfirmations).2
      = if txHeight + numConfirmations ≤ tipHeight + 1
        then PollResult.accepted ⟨txHeight⟩ else PollResult.keepPolling) := by
  have hiff : confirmed txHeight tipHeight numConfirmations = true ↔
      txHeight + numConfirmations ≤ tipHeight + 1 := by
    unfold confirmed
    rw [Nat.mod_eq_of_lt hx, Nat.mod_eq_of_lt hy]
    simp
  refine ⟨hiff, ?_, ?_⟩
  · intro hfalse
    have hnle : ¬ (txHeight + numConfirmations ≤ tipHeight + 1) := by
      intro hle
      simp [hiff.mpr hle] at hfalse
    unfold confsRemaining
    rw [Nat.mod_eq_of_lt hx, Nat.mod_eq_of_lt hy]
    have h1 : txHeight + numConfirmations + U64 - (tipHeight + 1)
        = (txHeight + numConfirmations - (tipHeight + 1)) + U64 := by omega
    rw [h1, Nat.add_mod_right, Nat.mod_eq_of_lt (by omega)]
  · intro st h
    by_cases hle : txHeight + numConfirmations ≤ tipHeight + 1
    · have hc : confirmed txHeight tipHeight numConfirmations = true :=
        hiff.mpr hle
      simp [waitPoll, hc, hle]
    · have hc : confirmed txHeight tipHeight numConfirmations = false := by
        cases hb : confirmed txHeight tipHeight numConfirmations
        · rfl
        · exact absurd (hiff.mp hb) hle
      simp [waitPoll, hc, hle]

/-- Witness for C1 (amended) at the spec's happy-path numbers:
receipt at block 100, tip at 105, six confirmations required. -/
theorem waitMined_confirmation_rule_witness :
    (1 ≤ 6 ∧ 100 + 6 < U64 ∧ 105 + 1 < U64) ∧
    ((confirmed 100 105 6 = true ↔ 100 + 6 ≤ 105 + 1) ∧
     (confirmed 100 105 6 = false →
       confsRemaining 100 105 6 = (100 + 6) - (105 + 1)) ∧
     (∀ st h, (waitPoll st h (some ⟨100⟩) none (some 105) 6).2
       = if 100 + 6 ≤ 105 + 1 then PollResult.accepted ⟨100⟩
         else PollResult.keepPolling)) :=
  ⟨⟨by decide, by decide, by decide⟩,
    waitMined_confirmation_rule 100 105 6 (by decide) (by decide) (by decide)⟩

/-- C8: one poll of `waitMined` with a send state attached: a present
receipt reports `TxMined` before the tip is fetched, so the state is
updated even when the tip fetch fails or the lookup also reported an
error; a receipt-lookup error leaves the state untouched; no receipt and
no error reports `TxNotMined`. -/
theorem waitPoll_state_transitions (s : SendState) (h : Hash) (r : Receipt)
    (e : GoError) (tip : Option Nat) (numConfirmations : Nat) :
    (waitPoll (some s) h (some r) none tip numConfirmations).1
      = some (txMined s h) ∧
    (waitPoll (some s) h (some r) (some e) tip numConfirmations).1
      = some (txMined s h) ∧
    waitPoll (some s) h (some r) (some e) none numConfirmations
      = (some (txMined s h), PollResult.keepPolling) ∧
    waitPoll (some s) h none (some e) tip numConfirmations
      = (some s, PollResult.keepPolling) ∧
    waitPoll (some s) h none none tip numConfirmations
      = (some (txNotMined s h), PollResult.keepPolling) := by
  refine ⟨?_, ?_, rfl, rfl, rfl⟩
  · cases tip with
    | none => rfl
    | some t =>
        cases hcb : confirmed r.blockNumber t numConfirmations <;>
          simp [waitPoll, hcb]
  · cases tip with
    | none => rfl
    | some t =>
        cases hcb : confirmed r.blockNumber t numConfirmations <;>
          simp [waitPoll, hcb]

/-- Model of `CalcGasFeeCap`, `big.Int` arithmetic over unbounded
integers, mirroring `Add(gasTipCap, Mul(baseFee, 2))`. -/
def calcGasFeeCap (baseFee gasTipCap : Int) : Int :=
  gasTipCap + baseFee * 2

/-- C9: for all integers, `CalcGasFeeCap` returns exactly
`gasTipCap + 2 * baseFee`, with no overflow or rounding. -/
theorem calcGasFeeCap_spec (baseFee gasTipCap : Int) :
    calcGasFeeCap baseFee gasTipCap = gasTipCap + 2 * baseFee := by
  unfold calcGasFeeCap
  ring

/-- The cancellation errors a Go context reports from `ctx.Err()`; these
are the only error values the `Send` select loop can return. -/
inductive CtxErr
  | canceled
  | deadlineExceeded
  deriving DecidableEq

/-- One event the `Send` select loop can wake on: a ticker tick (carrying
the shared send state observed at that instant), the derived context
becoming done, or a confirmed receipt arriving on the channel. -/
inductive SendEvent
  | tick (s : SendState)
  | ctxDone (e : CtxErr)
  | chanRecv (r : Receipt)

/-- Outcome of one iteration of the `Send` select loop: keep looping
(recording whether a new attempt was spawned) or return a pair. -/
inductive StepOut
  | continueLoop (spawned : Bool)
  | finished (receipt : Option Receipt) (err : Option CtxErr)
  deriving DecidableEq

/-- One iteration of the `Send` select loop: a tick spawns a new
`sendTxAsync` attempt unless `IsWaitingForConfirmation` holds on the
shared state; context done returns `(nil, ctx.Err())`; a receipt from the
channel returns `(receipt, nil)`. -/
def sendStep : SendEvent → StepOut
  | .tick s =>
      if isWaitingForConfirmation s then .continueLoop false
      else .continueLoop true
  | .ctxDone e => .finished none (some e)
  | .chanRecv r => .finished (some r) none

/-- The `Send` select loop over a finite trace of events; `none` when the
trace ends with the loop still running. -/
def sendLoop : List SendEvent → Option (Option Receipt × Option CtxErr)
  | [] => none
  | ev :: rest =>
      match sendStep ev with
      | .continueLoop _ => sendLoop rest
      | .finished r e => some (r, e)

/-- Number of `sendTxAsync` attempts the select loop spawns along a
trace. -/
def sendSpawnCount : List SendEvent → Nat
  | [] => 0
  | ev :: rest =>
      match sendStep ev with
      | .continueLoop b => (if b then 1 else 0) + sendSpawnCount rest
      | .finished _ _ => 0

/-- A transaction handle; only its hash is inspected by the core. -/
structure Tx where
  hash : Hash
  deriving DecidableEq

/-- The cancellation test the attempt body applies to a hook error:
`errors.Is(err, context.Canceled)` or a message containing the
"context canceled" text; on the message model the two collapse into the
substring test. -/
def isContextCanceled (e : GoError) : Bool :=
  strContains e "context canceled".toList

/-- Effect of one `sendTxAsync` attempt on the world outside the shared
send state: post a confirmed receipt to the channel, request cancellation
of the shared scope, or return with no effect. There is no error-returning
outcome: every hook error is absorbed inside the attempt. -/
inductive AsyncEffect
  | post (r : Receipt)
  | requestCancel
  | silentReturn
  deriving DecidableEq

/-- Model of the `sendTxAsync` attempt body: `gasResult` is the outcome of
`updateGasPrice`, `sendErr` the outcome of `sendTx` (passed to
`ProcessSendError` unconditionally), `waitResult` the confirmed receipt
`waitMined` returned (`none` when it errored). A non-cancellation
gas-price failure requests cancellation; a non-cancellation send failure
requests cancellation exactly when `ShouldAbortImmediately` holds on the
updated state; a receipt is posted only when `waitMined` produced one. -/
def sendTxAsync (s : SendState) (gasResult : Except GoError Tx)
    (sendErr : Option GoError) (waitResult : Option Receipt) :
    SendState × AsyncEffect :=
  match gasResult with
  | .error e =>
      if isContextCanceled e then (s, .silentReturn)
      else (s, .requestCancel)
  | .ok _ =>
      let s1 := processSendError s sendErr
      match sendErr with
      | some err =>
          if isContextCanceled err then (s1, .silentReturn)
          else if shouldAbortImmediately s1 then (s1, .requestCancel)
          else (s1, .silentReturn)
      | none =>
          match waitResult with
          | some r => (s1, .post r)
          | none => (s1, .silentReturn)

theorem sendStep_tick (s : SendState) :
    sendStep (SendEvent.tick s)
      = StepOut.continueLoop (!(isWaitingForConfirmation s)) := by
  unfold sendStep
  cases hb : isWaitingForConfirmation s <;> simp [hb]

/-- C6: every terminating run of the `Send` select loop returns exactly
one of a receipt paired with no error, or no receipt paired with a
cancellation error; never both, never neither. The error component has
type `CtxErr`, which contains only context-cancellation values, so no
other error kind reaches the caller. -/
theorem send_result_shape (evs : List SendEvent)
    (res : Option Receipt × Option CtxErr)
    (hres : sendLoop evs = some res) :
    (∃ r, res = (some r, none)) ∨ (∃ e, res = (none, some e)) := by
  induction evs with
  | nil => simp [sendLoop] at hres
  | cons ev rest ih =>
      cases ev with
      | tick s =>
          rw [sendLoop, sendStep_tick] at hres
          exact ih hres
      | ctxDone e =>
          rw [sendLoop] at hres
          exact Or.inr ⟨e, (Option.some.inj hres).symm⟩
      | chanRecv r =>
          rw [sendLoop] at hres
          exact Or.inl ⟨r, (Option.some.inj hres).symm⟩

/-- Witness for C6 on the one-event trace delivering a receipt. -/
theorem send_result_shape_witness :
    sendLoop [SendEvent.chanRecv ⟨100⟩] = some (some ⟨100⟩, none) ∧
    ((∃ r, ((some (⟨100⟩ : Receipt), (none : Option CtxErr))) = (some r, none)) ∨
     (∃ e, ((some (⟨100⟩ : Receipt), (none : Option CtxErr))) = (none, some e))) :=
  ⟨rfl, send_result_shape [SendEvent.chanRecv ⟨100⟩] (some ⟨100⟩, none) rfl⟩

/-- C7: a tick of the resubmission ticker spawns a new attempt exactly
when the shared send state is not waiting for a confirmation; a tick that
observes `IsWaitingForConfirmation` contributes no spawn to the trace. -/
theorem tick_spawns_iff_not_waiting (s : SendState) (evs : List SendEvent) :
    sendStep (SendEvent.tick s)
      = StepOut.continueLoop (!(isWaitingForConfirmation s)) ∧
    sendSpawnCount (SendEvent.tick s :: evs)
      = (if isWaitingForConfirmation s = true then 0 else 1)
        + sendSpawnCount evs := by
  refine ⟨sendStep_tick s, ?_⟩
  rw [sendSpawnCount, sendStep_tick]
  cases hb : isWaitingForConfirmation s <;> simp

end Txmgr
